import Mathlib

/-
Verification of the Lighthouse report helper (`lighthouseHelper.ts`):
the time-bucketed report store (`getDateTimePath` / `saveReportWithDateTime`),
the two-level scanner and dashboard renderer
(`generateConsolidatedReportWithDateTime` / `saveConsolidatedReportWithDateTime`),
the score-threshold assertion (`assertScoresAboveThreshold`) and the score
tier classifiers.

Modelling conventions:
* JavaScript numbers are embedded as `ℚ` (the values flowing through this
  helper are exact: integer scores and decimal metrics); the special value
  `NaN`, which arises when an absent (`undefined`) score enters arithmetic,
  is the extra constructor of `JsNum`.
* A score category that is absent from a stored JSON document reads back as
  `undefined`; score fields are therefore `Option ℚ` (`none` = absent).
* `report.timestamp` is stored by the source as `new Date().toISOString()`
  and is only ever consumed through `new Date(s).getTime()`; since
  `toISOString` is an injective, order-preserving encoding of the
  millisecond instant, the embedding carries the instant itself as a `Nat`
  of epoch milliseconds.
* The filesystem is embedded at exactly the depth the helper touches: the
  report root holds date folders, date folders hold time folders, time
  folders hold report files.  Entries the code never descends into are
  opaque.  `fs` errors (`EISDIR`, `ensureDir` on a file, JSON parse errors)
  are `Except.error`; the code under verification installs no handler for
  them, so they propagate.
-/

/-! ## JavaScript numeric semantics -/

/-- A JavaScript number as it occurs in this helper: an exact rational, or
`NaN` (produced when `undefined` enters arithmetic). -/
inductive JsNum where
  | num (q : ℚ)
  | nan
deriving DecidableEq, Repr

/-- JS `sum + s` where `s` is a possibly-absent score field: adding
`undefined` (an absent category) yields `NaN`, and `NaN` is absorbing.
This is the accumulation step of
`reports.reduce((sum, r) => sum + r.scores.<category>, 0)`. -/
def jsAdd : JsNum → Option ℚ → JsNum
  | .num a, some q => .num (a + q)
  | _, _ => .nan

/-- JS division as used in the summary cards.  The divisor is the report
count, guarded to be nonzero by the early return on
`reports.length === 0`, so the zero branch is unreachable (JS would give
`Infinity` there). -/
def jsDiv : JsNum → JsNum → JsNum
  | .num a, .num b => if b = 0 then .nan else .num (a / b)
  | _, _ => .nan

/-- `Math.round`: round half toward positive infinity; `NaN` is preserved. -/
def jsRound : JsNum → JsNum
  | .num q => .num ((⌊q + 1/2⌋ : ℤ) : ℚ)
  | .nan => .nan

/-- Decimal rendering of a rational JS number inside a template literal.
Every number interpolated by the helper is an integer (`Math.round` output
or an integer score), rendered exactly; the non-integral fallback is
unreachable for pipeline-produced reports. -/
def ratToJsString (q : ℚ) : String :=
  if q.den = 1 then toString q.num else toString q.num ++ "/" ++ toString q.den

/-- Template-literal rendering of a computed JS number. -/
def jsNumToString : JsNum → String
  | .num q => ratToJsString q
  | .nan => "NaN"

/-- Template-literal rendering of a possibly-absent score field:
`undefined` interpolates as the string "undefined". -/
def scoreValToString : Option ℚ → String
  | some q => ratToJsString q
  | none => "undefined"

/-- JS `s >= t` for a possibly-absent score `s`: any comparison with
`undefined` is false. -/
def scoreGe (s : Option ℚ) (t : ℚ) : Bool :=
  match s with
  | some q => decide (t ≤ q)
  | none => false

/-- JS `s < t` for a possibly-absent score `s`: any comparison with
`undefined` is false. -/
def scoreLt (s : Option ℚ) (t : ℚ) : Bool :=
  match s with
  | some q => decide (q < t)
  | none => false

/-- JS `String.prototype.endsWith`, used by the scanners' report-file
filter `f.endsWith('.json')`. -/
def strEndsWith (s suffix : String) : Bool :=
  suffix.data.isSuffixOf s.data

/-! ## Data model (`LighthouseScore`, `LighthouseMetrics`, `LighthouseReport`) -/

/-- The four fixed category scores (plus optional PWA).  A field is `none`
when the category is absent from the stored JSON document. -/
structure LighthouseScore where
  performance : Option ℚ
  accessibility : Option ℚ
  bestPractices : Option ℚ
  seo : Option ℚ
  pwa : Option ℚ := none
deriving DecidableEq, Repr

/-- The numeric web-vital metrics.  The TS interface requires them and the
renderer calls `.toFixed` on them unconditionally, so they are embedded as
plain rationals. -/
structure LighthouseMetrics where
  fcp : ℚ
  lcp : ℚ
  cls : ℚ
  fid : ℚ
  inp : ℚ
  ttfb : ℚ
deriving DecidableEq, Repr

/-- One audit result as stored on disk.  `timestamp` is the creation
instant in epoch milliseconds (see the header comment); `rawAudits` is the
opaque payload, preserved verbatim by the JSON round trip. -/
structure LighthouseReport where
  url : String
  timestamp : Nat
  scores : LighthouseScore
  metrics : LighthouseMetrics
  rawAudits : String
deriving DecidableEq, Repr

/-- The content of one file in a time bucket: either a JSON document that
parses into a report, or a malformed document on which `fs.readJSON`
throws. -/
inductive Doc where
  | valid (report : LighthouseReport)
  | malformed
deriving DecidableEq, Repr

/-! ## Wall-clock paths (`getDateTimePath`) -/

/-- The local wall-clock components read from `new Date()` at save or
render time (`month` is human 1-12, as the source computes
`getMonth() + 1`). -/
structure JsDate where
  year : Nat
  month : Nat
  day : Nat
  hour : Nat
  minute : Nat
  second : Nat
deriving DecidableEq, Repr

/-- `String(n).padStart(2, '0')`. -/
def padStart2 (s : String) : String :=
  if s.length < 2 then String.mk (List.replicate (2 - s.length) '0') ++ s else s

/-- The `YYYY-MM-DD` day-bucket name (`dateFolder` in `getDateTimePath`). -/
def dateFolderName (now : JsDate) : String :=
  toString now.year ++ "-" ++ padStart2 (toString now.month) ++ "-" ++
    padStart2 (toString now.day)

/-- The `HH-MM-SS` time-bucket name (`timeFolder` in `getDateTimePath`). -/
def timeFolderName (now : JsDate) : String :=
  padStart2 (toString now.hour) ++ "-" ++ padStart2 (toString now.minute) ++
    "-" ++ padStart2 (toString now.second)

/-- The human-readable `${dateFolder} ${hours}:${minutes}:${seconds}`
label embedded in the rendered dashboard. -/
def dateTimeLabel (now : JsDate) : String :=
  dateFolderName now ++ " " ++ padStart2 (toString now.hour) ++ ":" ++
    padStart2 (toString now.minute) ++ ":" ++ padStart2 (toString now.second)

/-- Result of `getDateTimePath`: the joined relative folder and the
display label. -/
structure DateTimePath where
  folder : String
  dateTime : String
deriving DecidableEq, Repr

/-- `getDateTimePath()`, with the wall-clock read (`new Date()`) made an
explicit argument. -/
def getDateTimePath (now : JsDate) : DateTimePath :=
  { folder := dateFolderName now ++ "/" ++ timeFolderName now
    dateTime := dateTimeLabel now }

/-- Default report filename `lighthouse-${Date.now()}.json` used by
`saveReportWithDateTime` when no filename is passed. -/
def defaultReportFilename (nowMillis : Nat) : String :=
  "lighthouse-" ++ toString nowMillis ++ ".json"

/-! ## The time-bucketed store

The helper touches the report root at exactly three levels: date folders,
time folders inside them, and report files inside those.  Each level is an
association list in directory-listing order; new entries are appended. -/

/-- An entry inside a time folder: a document file, or a subdirectory the
helper never descends into. -/
inductive TimeEntry where
  | file (d : Doc)
  | subdir
deriving DecidableEq, Repr

/-- An entry inside a date folder: a stray file, or a time folder. -/
inductive DateEntry where
  | file (d : Doc)
  | dir (files : List (String × TimeEntry))
deriving DecidableEq, Repr

/-- An entry inside the report root: a stray file, or a date folder. -/
inductive RootEntry where
  | file (d : Doc)
  | dir (entries : List (String × DateEntry))
deriving DecidableEq, Repr

/-- The listing of the report root directory. -/
abbrev Store := List (String × RootEntry)

/-- `fs.writeJSON` inside an (ensured) time folder: overwrite an existing
file of the same name, error (`EISDIR`) if a directory bears the name,
append otherwise. -/
def writeJsonDoc : List (String × TimeEntry) → String → Doc →
    Except String (List (String × TimeEntry))
  | [], fn, d => .ok [(fn, .file d)]
  | (n, e) :: rest, fn, d =>
    if n = fn then
      match e with
      | .file _ => .ok ((n, .file d) :: rest)
      | .subdir => .error "EISDIR: illegal operation on a directory"
    else do
      let rest' ← writeJsonDoc rest fn d
      .ok ((n, e) :: rest')

/-- `fs.ensureDir` of the time folder followed by the document write:
creates the time folder if absent, errors if a plain file bears its name. -/
def ensureTimeDirAndWrite : List (String × DateEntry) → String → String → Doc →
    Except String (List (String × DateEntry))
  | [], tf, fn, d => .ok [(tf, .dir [(fn, .file d)])]
  | (n, e) :: rest, tf, fn, d =>
    if n = tf then
      match e with
      | .dir files => do
          let files' ← writeJsonDoc files fn d
          .ok ((n, .dir files') :: rest)
      | .file _ => .error "EEXIST: ensureDir over an existing file"
    else do
      let rest' ← ensureTimeDirAndWrite rest tf fn d
      .ok ((n, e) :: rest')

/-- `fs.ensureDir` of the date folder, then of the time folder, then the
document write. -/
def ensureDateDirAndWrite : Store → String → String → String → Doc →
    Except String Store
  | [], df, tf, fn, d => .ok [(df, .dir [(tf, .dir [(fn, .file d)])])]
  | (n, e) :: rest, df, tf, fn, d =>
    if n = df then
      match e with
      | .dir entries => do
          let entries' ← ensureTimeDirAndWrite entries tf fn d
          .ok ((n, .dir entries') :: rest)
      | .file _ => .error "EEXIST: ensureDir over an existing file"
    else do
      let rest' ← ensureDateDirAndWrite rest df tf fn d
      .ok ((n, e) :: rest')

/-- `saveReportWithDateTime`: writes the report document under
`<root>/<YYYY-MM-DD>/<HH-MM-SS>/<filename>`, the two bucket names derived
from the wall clock by `getDateTimePath`. -/
def saveReportWithDateTime (store : Store) (now : JsDate)
    (report : LighthouseReport) (filename : String) : Except String Store :=
  ensureDateDirAndWrite store (dateFolderName now) (timeFolderName now)
    filename (.valid report)

/-! ## The scanner (`generateConsolidatedReportWithDateTime`, walk phase) -/

/-- `fs.readJSON` on one directory entry whose name passed the `.json`
filter: parses a valid document, throws on a malformed one, and throws
`EISDIR` on a directory. -/
def readJSONentry : TimeEntry → Except String LighthouseReport
  | .file (.valid r) => .ok r
  | .file .malformed => .error "SyntaxError: unexpected token in JSON"
  | .subdir => .error "EISDIR: illegal operation on a directory"

/-- The inner loop `for (const file of jsonFiles) { ... readJSON ... }`:
reads the already-filtered files in order, propagating the first error. -/
def readJsonFiles : List (String × TimeEntry) →
    Except String (List LighthouseReport)
  | [] => .ok []
  | e :: rest => do
      let r ← readJSONentry e.2
      let more ← readJsonFiles rest
      pure (r :: more)

/-- One time folder: `files.filter(f => f.endsWith('.json'))`, then the
read loop. -/
def scanTimeFolder (files : List (String × TimeEntry)) :
    Except String (List LighthouseReport) :=
  readJsonFiles (files.filter fun e => strEndsWith e.1 ".json")

/-- One date folder: every entry that is itself a directory (checked via
`fs.stat`) is scanned as a time folder; plain files are skipped. -/
def scanDateFolder : List (String × DateEntry) →
    Except String (List LighthouseReport)
  | [] => .ok []
  | (_, .file _) :: rest => scanDateFolder rest
  | (_, .dir files) :: rest => do
      let rs ← scanTimeFolder files
      let more ← scanDateFolder rest
      pure (rs ++ more)

/-- The root walk: every entry that is a directory is scanned as a date
folder; plain files are skipped. -/
def scanRoot : Store → Except String (List LighthouseReport)
  | [] => .ok []
  | (_, .file _) :: rest => scanRoot rest
  | (_, .dir entries) :: rest => do
      let rs ← scanDateFolder entries
      let more ← scanRoot rest
      pure (rs ++ more)

/-! ## Threshold assertion (`assertScoresAboveThreshold`) -/

/-- `Partial<LighthouseScore>`: a threshold field that is absent falls back
to the default of 50 via the object spread. -/
structure ScoreThresholds where
  performance : Option ℚ := none
  accessibility : Option ℚ := none
  bestPractices : Option ℚ := none
  seo : Option ℚ := none
  pwa : Option ℚ := none
deriving DecidableEq, Repr

/-- The `{ passed, issues }` result of the assertion helpers. -/
structure AssertionResult where
  passed : Bool
  issues : List String
deriving DecidableEq, Repr

/-- `assertScoresAboveThreshold`: one issue message is pushed per category
whose score is strictly below its (defaulted) threshold, and `passed` is
`issues.length === 0`. -/
def assertScoresAboveThreshold (scores : LighthouseScore)
    (thresholds : ScoreThresholds) : AssertionResult :=
  let dPerformance := thresholds.performance.getD 50
  let dAccessibility := thresholds.accessibility.getD 50
  let dBestPractices := thresholds.bestPractices.getD 50
  let dSeo := thresholds.seo.getD 50
  let issues :=
    (if scoreLt scores.performance dPerformance then
      ["Performance score " ++ scoreValToString scores.performance ++
        " is below threshold " ++ ratToJsString dPerformance]
     else []) ++
    (if scoreLt scores.accessibility dAccessibility then
      ["Accessibility score " ++ scoreValToString scores.accessibility ++
        " is below threshold " ++ ratToJsString dAccessibility]
     else []) ++
    (if scoreLt scores.bestPractices dBestPractices then
      ["Best Practices score " ++ scoreValToString scores.bestPractices ++
        " is below threshold " ++ ratToJsString dBestPractices]
     else []) ++
    (if scoreLt scores.seo dSeo then
      ["SEO score " ++ scoreValToString scores.seo ++
        " is below threshold " ++ ratToJsString dSeo]
     else [])
  { passed := issues.isEmpty, issues := issues }

/-! ## Score tier classifiers -/

/-- `getScoreClass` from `convertToHTML`: the CSS class of a score card. -/
def getScoreClass (score : ℚ) : String :=
  if 90 ≤ score then "score-good"
  else if 50 ≤ score then "score-average"
  else "score-poor"

/-- The inline ternary classifier of a detail row,
`s >= 90 ? 'good' : s >= 50 ? 'avg' : 'poor'`, applied to the raw
(possibly absent) score field. -/
def rowScoreClass (s : Option ℚ) : String :=
  if scoreGe s 90 then "good" else if scoreGe s 50 then "avg" else "poor"

/-! ## The rendered dashboard (template literal of
`generateConsolidatedReportWithDateTime`), split at its interpolation
sites -/

def htmlChunkA : String :=
  "<!DOCTYPE html>\n" ++
  "<html lang=\"en\">\n" ++
  "<head>\n" ++
  "    <meta charset=\"UTF-8\">\n" ++
  "    <meta name=\"viewport\" content=\"width=device-width, initial-scale=1.0\">\n" ++
  "    <title>Lighthouse Reports - "

def htmlChunkB : String :=
  "</title>\n" ++
  "    <style>\n" ++
  "        * \x7b\n" ++
  "            margin: 0;\n" ++
  "            padding: 0;\n" ++
  "            box-sizing: border-box;\n" ++
  "        \x7d\n" ++
  "\n" ++
  "        body \x7b\n" ++
  "            font-family: -apple-system, BlinkMacSystemFont, \x27Segoe UI\x27, Roboto, sans-serif;\n" ++
  "            background: #f5f5f5;\n" ++
  "            padding: 20px;\n" ++
  "        \x7d\n" ++
  "\n" ++
  "        .container \x7b\n" ++
  "            max-width: 1200px;\n" ++
  "            margin: 0 auto;\n" ++
  "            background: white;\n" ++
  "            border-radius: 10px;\n" ++
  "            box-shadow: 0 2px 10px rgba(0, 0, 0, 0.1);\n" ++
  "            overflow: hidden;\n" ++
  "        \x7d\n" ++
  "\n" ++
  "        .header \x7b\n" ++
  "            background: linear-gradient(135deg, #667eea 0%, #764ba2 100%);\n" ++
  "            color: white;\n" ++
  "            padding: 30px;\n" ++
  "            text-align: center;\n" ++
  "        \x7d\n" ++
  "\n" ++
  "        .header h1 \x7b\n" ++
  "            font-size: 32px;\n" ++
  "            margin-bottom: 10px;\n" ++
  "        \x7d\n" ++
  "\n" ++
  "        .header p \x7b\n" ++
  "            font-size: 14px;\n" ++
  "            opacity: 0.9;\n" ++
  "        \x7d\n" ++
  "\n" ++
  "        .content \x7b\n" ++
  "            padding: 30px;\n" ++
  "            overflow-x: auto;\n" ++
  "        \x7d\n" ++
  "\n" ++
  "        table \x7b\n" ++
  "            width: 100%;\n" ++
  "            border-collapse: collapse;\n" ++
  "            margin-top: 20px;\n" ++
  "        \x7d\n" ++
  "\n" ++
  "        th \x7b\n" ++
  "            background: #f8f9fa;\n" ++
  "            padding: 12px;\n" ++
  "            text-align: left;\n" ++
  "            font-weight: 600;\n" ++
  "            border-bottom: 2px solid #e0e0e0;\n" ++
  "            font-size: 12px;\n" ++
  "            text-transform: uppercase;\n" ++
  "            color: #333;\n" ++
  "        \x7d\n" ++
  "\n" ++
  "        td \x7b\n" ++
  "            padding: 12px;\n" ++
  "            border-bottom: 1px solid #e0e0e0;\n" ++
  "            font-size: 13px;\n" ++
  "        \x7d\n" ++
  "\n" ++
  "        tr:hover \x7b\n" ++
  "            background: #f8f9fa;\n" ++
  "        \x7d\n" ++
  "\n" ++
  "        .score \x7b\n" ++
  "            display: inline-block;\n" ++
  "            padding: 4px 8px;\n" ++
  "            border-radius: 4px;\n" ++
  "            font-weight: 600;\n" ++
  "            text-align: center;\n" ++
  "            min-width: 40px;\n" ++
  "            color: white;\n" ++
  "        \x7d\n" ++
  "\n" ++
  "        .score.good \x7b\n" ++
  "            background: #0cce6b;\n" ++
  "        \x7d\n" ++
  "\n" ++
  "        .score.avg \x7b\n" ++
  "            background: #ffa400;\n" ++
  "        \x7d\n" ++
  "\n" ++
  "        .score.poor \x7b\n" ++
  "            background: #ff4e42;\n" ++
  "        \x7d\n" ++
  "\n" ++
  "        .footer \x7b\n" ++
  "            background: #f8f9fa;\n" ++
  "            padding: 20px 30px;\n" ++
  "            text-align: center;\n" ++
  "            font-size: 12px;\n" ++
  "            color: #666;\n" ++
  "            border-top: 1px solid #e0e0e0;\n" ++
  "        \x7d\n" ++
  "\n" ++
  "        .summary \x7b\n" ++
  "            display: grid;\n" ++
  "            grid-template-columns: repeat(auto-fit, minmax(200px, 1fr));\n" ++
  "            gap: 20px;\n" ++
  "            margin-bottom: 30px;\n" ++
  "        \x7d\n" ++
  "\n" ++
  "        .summary-card \x7b\n" ++
  "            background: #f8f9fa;\n" ++
  "            padding: 20px;\n" ++
  "            border-radius: 5px;\n" ++
  "            text-align: center;\n" ++
  "        \x7d\n" ++
  "\n" ++
  "        .summary-card .label \x7b\n" ++
  "            font-size: 12px;\n" ++
  "            color: #666;\n" ++
  "            text-transform: uppercase;\n" ++
  "            font-weight: 600;\n" ++
  "        \x7d\n" ++
  "\n" ++
  "        .summary-card .value \x7b\n" ++
  "            font-size: 28px;\n" ++
  "            font-weight: bold;\n" ++
  "            color: #667eea;\n" ++
  "            margin-top: 10px;\n" ++
  "        \x7d\n" ++
  "\n" ++
  "        .timestamp \x7b\n" ++
  "            font-size: 14px;\n" ++
  "            color: #f8fafaff;\n" ++
  "            margin-top: 5px;\n" ++
  "        \x7d\n" ++
  "    </style>\n" ++
  "</head>\n" ++
  "<body>\n" ++
  "    <div class=\"container\">\n" ++
  "        <div class=\"header\">\n" ++
  "            <h1>Lighthouse Performance Reports</h1>\n" ++
  "            <p>Consolidated Performance Analysis</p>\n" ++
  "            <div class=\"timestamp\">Generated: "

def htmlChunkC : String :=
  "</div>\n" ++
  "        </div>\n" ++
  "\n" ++
  "        <div class=\"content\">\n" ++
  "            <div class=\"summary\">\n"

def cardChunk1 : String :=
  "                <div class=\"summary-card\">\n" ++
  "                    <div class=\"label\">"

def cardChunk2 : String :=
  "</div>\n" ++
  "                    <div class=\"value\">"

def cardChunk3 : String :=
  "</div>\n" ++
  "                </div>\n"

def htmlChunkD : String :=
  "            </div>\n" ++
  "\n" ++
  "            <h2 style=\"margin-top: 30px; margin-bottom: 15px;\">Detailed Results</h2>\n" ++
  "            <table>\n" ++
  "                <thead>\n" ++
  "                    <tr>\n" ++
  "                        <th>URL</th>\n" ++
  "                        <th>Performance</th>\n" ++
  "                        <th>Accessibility</th>\n" ++
  "                        <th>Best Practices</th>\n" ++
  "                        <th>SEO</th>\n" ++
  "                        <th>FCP</th>\n" ++
  "                        <th>LCP</th>\n" ++
  "                        <th>CLS</th>\n" ++
  "                        <th>Tested</th>\n" ++
  "                    </tr>\n" ++
  "                </thead>\n" ++
  "                <tbody>\n" ++
  "                    "

def htmlChunkE : String :=
  "\n" ++
  "                </tbody>\n" ++
  "            </table>\n" ++
  "        </div>\n" ++
  "\n" ++
  "        <div class=\"footer\">\n" ++
  "            <p>Generated on "

def htmlChunkF : String :=
  " | Total Reports: "

def htmlChunkG : String :=
  "</p>\n" ++
  "        </div>\n" ++
  "    </div>\n" ++
  "</body>\n" ++
  "</html>"

/-! ## Renderer (assembly phase of `generateConsolidatedReportWithDateTime`) -/

/-- `Number.prototype.toFixed(0)`: nearest integer, ties toward positive
infinity, as a string. -/
def toFixed0 (q : ℚ) : String :=
  toString (⌊q + 1/2⌋ : ℤ)

/-- Zero-padding of a natural to a given width (digit-string helper for
`toFixed(3)`). -/
def natPad (len : Nat) (n : Nat) : String :=
  let s := toString n
  if s.length < len then String.mk (List.replicate (len - s.length) '0') ++ s
  else s

/-- `Number.prototype.toFixed(3)`: three fractional digits, ties toward
positive infinity. -/
def toFixed3 (q : ℚ) : String :=
  let n : ℤ := ⌊q * 1000 + 1/2⌋
  (if n < 0 then "-" else "") ++ toString (n.natAbs / 1000) ++ "." ++
    natPad 3 (n.natAbs % 1000)

/-- `new Date(r.timestamp).toLocaleString()`.  The real rendering depends
on the host locale and time zone, which are constant for the lifetime of
the rendering process; the embedding fixes one injective rendering of the
millisecond instant. -/
def dateToLocaleString (epochMillis : Nat) : String :=
  "[locale datetime of epoch-ms " ++ toString epochMillis ++ "]"

/-- One score cell of a detail row:
`<td><div class="score ${tier}">${value}</div></td>`. -/
def rowScoreCell (tier val : String) : String :=
  "            <td><div class=\"score " ++ tier ++ "\">" ++ val ++
    "</div></td>\n"

/-- One detail row of the consolidated table (the `reports.map(r => ...)`
template literal, including its leading and trailing whitespace). -/
def renderReportRow (r : LighthouseReport) : String :=
  "\n        <tr>\n" ++
  "            <td>" ++ r.url ++ "</td>\n" ++
  rowScoreCell (rowScoreClass r.scores.performance)
    (scoreValToString r.scores.performance) ++
  rowScoreCell (rowScoreClass r.scores.accessibility)
    (scoreValToString r.scores.accessibility) ++
  rowScoreCell (rowScoreClass r.scores.bestPractices)
    (scoreValToString r.scores.bestPractices) ++
  rowScoreCell (rowScoreClass r.scores.seo)
    (scoreValToString r.scores.seo) ++
  "            <td>" ++ toFixed0 r.metrics.fcp ++ "ms</td>\n" ++
  "            <td>" ++ toFixed0 r.metrics.lcp ++ "ms</td>\n" ++
  "            <td>" ++ toFixed3 r.metrics.cls ++ "</td>\n" ++
  "            <td>" ++ dateToLocaleString r.timestamp ++ "</td>\n" ++
  "        </tr>\n    "

/-- `reportRows`: the mapped row strings joined with `''`. -/
def reportRowsJoined (sorted : List LighthouseReport) : String :=
  String.join (sorted.map renderReportRow)

/-- The in-place `reports.sort((a, b) =>
new Date(b.timestamp).getTime() - new Date(a.timestamp).getTime())`:
descending by creation instant; `Array.prototype.sort` is stable, as is
`List.mergeSort`. -/
def sortByTimestampDesc (reports : List LighthouseReport) :
    List LighthouseReport :=
  reports.mergeSort (fun a b => decide (b.timestamp ≤ a.timestamp))

/-- One summary-card mean:
`Math.round(reports.reduce((sum, r) => sum + r.scores.<category>, 0) /
reports.length)`. -/
def avgScoreCard (reports : List LighthouseReport)
    (category : LighthouseReport → Option ℚ) : JsNum :=
  jsRound (jsDiv (reports.foldl (fun sum r => jsAdd sum (category r))
    (.num 0)) (.num reports.length))

/-- The summary step of the consolidated dashboard: the aggregation
computes the report count and a rounded mean for exactly three categories
(performance, accessibility, SEO), each shown as a labelled card. -/
def summaryCards (reports : List LighthouseReport) : List (String × String) :=
  [("Total Reports", toString reports.length),
   ("Avg Performance", jsNumToString (avgScoreCard reports
      (fun r => r.scores.performance))),
   ("Avg Accessibility", jsNumToString (avgScoreCard reports
      (fun r => r.scores.accessibility))),
   ("Avg SEO", jsNumToString (avgScoreCard reports
      (fun r => r.scores.seo)))]

/-- One summary card `<div class="summary-card">...</div>`. -/
def summaryCardDiv (card : String × String) : String :=
  cardChunk1 ++ card.1 ++ cardChunk2 ++ card.2 ++ cardChunk3

/-- The full consolidated dashboard document, assembled exactly as the
source template literal: the three `${dateTime}` sites, the summary cards,
the joined detail rows and the footer count. -/
def consolidatedHtml (sorted : List LighthouseReport) (dateTime : String) :
    String :=
  htmlChunkA ++ dateTime ++ htmlChunkB ++ dateTime ++ htmlChunkC ++
  String.join ((summaryCards sorted).map summaryCardDiv) ++
  htmlChunkD ++ reportRowsJoined sorted ++ htmlChunkE ++ dateTime ++
  htmlChunkF ++ toString sorted.length ++ htmlChunkG

/-- `generateConsolidatedReportWithDateTime`: reads the clock (the
`getDateTimePath()` call on its first line, here the explicit `now`),
returns `''` for a missing root, scans the two-level tree, returns `''`
for zero reports, and otherwise renders the sorted reports.  `root` is
`none` when the report directory does not exist (`fs.pathExists` false). -/
def generateConsolidatedReportWithDateTime (root : Option Store)
    (now : JsDate) : Except String String :=
  let dtp := getDateTimePath now
  match root with
  | none => .ok ""
  | some entries => do
      let reports ← scanRoot entries
      if reports.length = 0 then pure ""
      else
        let sorted := sortByTimestampDesc reports
        pure (consolidatedHtml sorted dtp.dateTime)

/-- `saveConsolidatedReportWithDateTime`: renders, and when the html is
empty logs an error and returns `''` without writing anything; otherwise
writes the document to the fixed latest-report path.  The result pairs the
returned path with the written document (`none` = nothing written). -/
def saveConsolidatedReportWithDateTime (root : Option Store) (now : JsDate) :
    Except String (String × Option String) := do
  let html ← generateConsolidatedReportWithDateTime root now
  if html = "" then pure ("", none)
  else pure ("playwright-report/lighthouse_reports/lighthouse-report-latest.html",
    some html)

/-! ## Helper lemmas -/

/-- Inversion of `Except` bind at a successful result. -/
theorem exceptBind_ok {α β : Type} {x : Except String α}
    {f : α → Except String β} {b : β} :
    (x >>= f) = .ok b ↔ ∃ a, x = .ok a ∧ f a = .ok b := by
  cases x <;> simp [Bind.bind, Except.bind]

/-! ## C3: missing root -/

/-- C3: for a root path that does not exist on disk
(`fs.pathExists` false), `generateConsolidatedReportWithDateTime` returns
normally (the `''` early return) with zero reports, rather than raising an
error. -/
theorem scanMissingRoot_ok (now : JsDate) :
    generateConsolidatedReportWithDateTime none now = .ok "" := rfl

/-! ## C4: empty aggregate -/

/-- C4 counterexample: on an existing but empty report root, the claimed
"valid document stating zero reports" is not produced: the renderer
returns the empty string and the save step writes nothing (`none`),
so there is no displayable "no data yet" document. -/
theorem emptyAggregate_emptyOutput :
    generateConsolidatedReportWithDateTime (some []) ⟨2025, 1, 2, 3, 4, 5⟩ =
      .ok "" ∧
    saveConsolidatedReportWithDateTime (some []) ⟨2025, 1, 2, 3, 4, 5⟩ =
      .ok ("", none) := by
  constructor <;> rfl

/-- C4 amended: rendering an empty aggregate does not throw — whenever the
scan yields zero reports the renderer returns normally with the empty
string, and the save step then skips writing any document (logging an
error); no "zero reports" document is produced. -/
theorem emptyAggregate_rendersNothing (root : Store) (now : JsDate)
    (h : scanRoot root = .ok []) :
    generateConsolidatedReportWithDateTime (some root) now = .ok "" ∧
    saveConsolidatedReportWithDateTime (some root) now = .ok ("", none) := by
  refine ⟨?_, ?_⟩ <;>
    simp [generateConsolidatedReportWithDateTime,
      saveConsolidatedReportWithDateTime, h, Bind.bind, Except.bind,
      Pure.pure, Except.pure]

/-- Witness for `emptyAggregate_rendersNothing` at the empty root listing. -/
theorem emptyAggregate_rendersNothing_witness :
    scanRoot [] = .ok [] ∧
    generateConsolidatedReportWithDateTime (some []) ⟨2025, 1, 2, 3, 4, 6⟩ =
      .ok "" := by
  exact ⟨rfl, (emptyAggregate_rendersNothing [] ⟨2025, 1, 2, 3, 4, 6⟩ rfl).1⟩

/-! ## C7: score tier classifier -/

/-- C7: the renderer's tiered visual classifiers (the inline row ternary
and `getScoreClass`) assign the "good" tier iff the score is at least 90,
the "average" tier for scores in [50, 89], and the "poor" tier below 50. -/
theorem scoreTierClassifier (s : ℚ) (_h0 : 0 ≤ s) (_h100 : s ≤ 100) :
    (90 ≤ s → rowScoreClass (some s) = "good" ∧
      getScoreClass s = "score-good") ∧
    (50 ≤ s ∧ s ≤ 89 → rowScoreClass (some s) = "avg" ∧
      getScoreClass s = "score-average") ∧
    (s < 50 → rowScoreClass (some s) = "poor" ∧
      getScoreClass s = "score-poor") := by
  refine ⟨fun h => ?_, fun h => ?_, fun h => ?_⟩
  · simp [rowScoreClass, getScoreClass, scoreGe, h]
  · have h1 : ¬ (90 : ℚ) ≤ s := by linarith [h.2]
    simp [rowScoreClass, getScoreClass, scoreGe, h.1, h1]
  · have h1 : ¬ (90 : ℚ) ≤ s := by linarith
    have h2 : ¬ (50 : ℚ) ≤ s := by linarith
    simp [rowScoreClass, getScoreClass, scoreGe, h1, h2]

/-- Witness for `scoreTierClassifier`: a performance score of 91 is
classified "good" by both classifiers. -/
theorem scoreTierClassifier_witness :
    (0 : ℚ) ≤ 91 ∧ (91 : ℚ) ≤ 100 ∧
    rowScoreClass (some 91) = "good" ∧ getScoreClass 91 = "score-good" := by
  refine ⟨by norm_num, by norm_num, ?_⟩
  exact (scoreTierClassifier 91 (by norm_num) (by norm_num)).1 (by norm_num)

/-! ## C10: `assertScoresAboveThreshold` -/

/-- C10: for well-typed scores (all four categories present),
`assertScoresAboveThreshold` passes iff every category score is at least
its threshold (each defaulting to 50), its issue list carries exactly one
message per failing category, and `passed` holds exactly when the issue
list is empty. -/
theorem assertScores_passedIffAllAboveThreshold
    (scores : LighthouseScore) (thresholds : ScoreThresholds)
    (p a b s : ℚ)
    (hp : scores.performance = some p) (ha : scores.accessibility = some a)
    (hb : scores.bestPractices = some b) (hs : scores.seo = some s) :
    ((assertScoresAboveThreshold scores thresholds).passed = true ↔
      (thresholds.performance.getD 50 ≤ p ∧
       thresholds.accessibility.getD 50 ≤ a ∧
       thresholds.bestPractices.getD 50 ≤ b ∧
       thresholds.seo.getD 50 ≤ s)) ∧
    (assertScoresAboveThreshold scores thresholds).issues.length =
      ((if p < thresholds.performance.getD 50 then 1 else 0) +
       (if a < thresholds.accessibility.getD 50 then 1 else 0) +
       (if b < thresholds.bestPractices.getD 50 then 1 else 0) +
       (if s < thresholds.seo.getD 50 then 1 else 0)) ∧
    ((assertScoresAboveThreshold scores thresholds).passed = true ↔
      (assertScoresAboveThreshold scores thresholds).issues = []) := by
  by_cases h1 : p < thresholds.performance.getD 50 <;>
  by_cases h2 : a < thresholds.accessibility.getD 50 <;>
  by_cases h3 : b < thresholds.bestPractices.getD 50 <;>
  by_cases h4 : s < thresholds.seo.getD 50 <;>
  simp [assertScoresAboveThreshold, scoreLt, hp, ha, hb, hs,
    h1, h2, h3, h4, ← not_lt]

/-- Witness for `assertScores_passedIffAllAboveThreshold`: the scores
{performance 91, accessibility 98, bestPractices 100, seo 92} against the
all-default thresholds pass. -/
theorem assertScores_passedIffAllAboveThreshold_witness :
    (assertScoresAboveThreshold
      ⟨some 91, some 98, some 100, some 92, none⟩ {}).passed = true := by
  have h := assertScores_passedIffAllAboveThreshold
    ⟨some 91, some 98, some 100, some 92, none⟩ {} 91 98 100 92
    rfl rfl rfl rfl
  exact h.1.mpr (by norm_num [ScoreThresholds.performance,
    ScoreThresholds.accessibility, ScoreThresholds.bestPractices,
    ScoreThresholds.seo])

/-! ## Aggregation lemmas -/

/-- Folding `jsAdd` from `NaN` stays `NaN`. -/
theorem foldl_jsAdd_nan (category : LighthouseReport → Option ℚ)
    (l : List LighthouseReport) :
    l.foldl (fun sum r => jsAdd sum (category r)) .nan = .nan := by
  induction l with
  | nil => rfl
  | cons x xs ih => simpa [jsAdd] using ih


/-- Folding `jsAdd` over reports that all carry the category yields the
exact rational sum. -/
theorem foldl_jsAdd_present (category : LighthouseReport → Option ℚ)
    (l : List LighthouseReport) (a : ℚ)
    (h : ∀ r ∈ l, (category r).isSome) :
    l.foldl (fun sum r => jsAdd sum (category r)) (.num a) =
      .num (a + (l.map fun r => (category r).getD 0).sum) := by
  induction l generalizing a with
  | nil => simp
  | cons x xs ih =>
    obtain ⟨q, hq⟩ := Option.isSome_iff_exists.mp (h x (by simp))
    have hrest : ∀ r ∈ xs, (category r).isSome := fun r hr => h r (by simp [hr])
    have hstep : jsAdd (JsNum.num a) (category x) = .num (a + q) := by
      simp [jsAdd, hq]
    simp only [List.foldl_cons]
    rw [hstep, ih (a + q) hrest, List.map_cons, List.sum_cons, hq,
      Option.getD_some]
    congr 1
    ring

/-- Folding `jsAdd` over a list containing a report that lacks the
category yields `NaN`. -/
theorem foldl_jsAdd_absent (category : LighthouseReport → Option ℚ)
    (l : List LighthouseReport) (init : JsNum)
    (h : ∃ r ∈ l, category r = none) :
    l.foldl (fun sum r => jsAdd sum (category r)) init = .nan := by
  induction l generalizing init with
  | nil => simp at h
  | cons x xs ih =>
    rcases h with ⟨r, hr, hnone⟩
    rcases List.mem_cons.mp hr with rfl | hmem
    · have hstep : jsAdd init (category r) = .nan := by
        cases init <;> simp [jsAdd, hnone]
      simp only [List.foldl_cons]
      rw [hstep]
      exact foldl_jsAdd_nan category xs
    · exact ih _ ⟨r, hmem, hnone⟩

/-! ## C9: a missing category poisons the mean to NaN -/

/-- A stored report whose document carries all four category scores
(SEO 80), used in the missing-category scenario. -/
def reportWithSeo : LighthouseReport :=
  ⟨"https://a.example", 1000, ⟨some 90, some 90, some 90, some 80, none⟩,
    ⟨1080, 1080, 0, 0, 0, 100⟩, "raw"⟩

/-- A stored report whose document has no `seo` entry in `scores`. -/
def reportWithoutSeo : LighthouseReport :=
  ⟨"https://b.example", 2000, ⟨some 90, some 90, some 90, none, none⟩,
    ⟨1080, 1080, 0, 0, 0, 100⟩, "raw"⟩

/-- The two-report sequence of the missing-category scenario. -/
def mixedSeoReports : List LighthouseReport :=
  [reportWithSeo, reportWithoutSeo]

/-- C9 counterexample: over `mixedSeoReports` (SEO scores 80 and absent)
the claimed absence-as-zero policy would put `round((80 + 0) / 2) = 40`
on the SEO summary card; the code instead propagates `undefined` through
the sum, and the computed mean is `NaN`, not 40. -/
theorem missingCategory_notZeroContribution :
    avgScoreCard mixedSeoReports (fun r => r.scores.seo) = .nan ∧
    avgScoreCard mixedSeoReports (fun r => r.scores.seo) ≠ .num 40 := by
  have h : avgScoreCard mixedSeoReports (fun r => r.scores.seo) = .nan := by
    simp [avgScoreCard, mixedSeoReports, reportWithSeo, reportWithoutSeo,
      jsAdd, jsDiv, jsRound]
  exact ⟨h, by simp [h]⟩

/-- C9 amended: when any report in the sequence lacks a score category,
the summary-card mean computed for that category is `NaN` (the absent
value poisons the whole sum), rendered as the string "NaN" — absence is
not treated as a 0 contribution. -/
theorem missingCategory_meanNaN (reports : List LighthouseReport)
    (category : LighthouseReport → Option ℚ)
    (h : ∃ r ∈ reports, category r = none) :
    avgScoreCard reports category = .nan ∧
    jsNumToString (avgScoreCard reports category) = "NaN" := by
  have hfold := foldl_jsAdd_absent category reports (.num 0) h
  have hmean : avgScoreCard reports category = .nan := by
    simp [avgScoreCard, hfold, jsDiv, jsRound]
  exact ⟨hmean, by simp [hmean, jsNumToString]⟩

/-- Witness for `missingCategory_meanNaN` at the mixed two-report store. -/
theorem missingCategory_meanNaN_witness :
    (∃ r ∈ mixedSeoReports, r.scores.seo = none) ∧
    avgScoreCard mixedSeoReports (fun r => r.scores.seo) = .nan := by
  have hmem : ∃ r ∈ mixedSeoReports, r.scores.seo = none :=
    ⟨reportWithoutSeo, by simp [mixedSeoReports], rfl⟩
  exact ⟨hmem, (missingCategory_meanNaN mixedSeoReports
    (fun r => r.scores.seo) hmem).1⟩

/-! ## C2: summary means -/

/-- Spelled out from the specification: "mean = round(sum of that
category's score across all reports / N) using round-half-up". -/
def roundHalfUpMean (xs : List ℚ) : ℚ :=
  ((⌊xs.sum / xs.length + 1/2⌋ : ℤ) : ℚ)

/-- C2 counterexample: the summary step of the consolidated dashboard
computes cards for the report count and for exactly three category means —
performance, accessibility and SEO.  No best-practices mean is computed or
shown, at this concrete three-report input or anywhere else, so the
claimed "mean for each of the four fixed score categories" fails. -/
theorem summaryCards_noBestPracticesCard :
    (summaryCards mixedSeoReports).map Prod.fst =
      ["Total Reports", "Avg Performance", "Avg Accessibility", "Avg SEO"] ∧
    ∀ card ∈ summaryCards mixedSeoReports,
      card.1 ≠ "Avg Best Practices" := by
  refine ⟨rfl, ?_⟩
  intro card hcard
  fin_cases hcard <;> decide

/-- C2 amended: for N ≥ 1 reports all carrying the performance,
accessibility and SEO categories, the aggregation computes count = N (the
"Total Reports" card) and, for each of the three categories it aggregates
(performance, accessibility, SEO — best-practices has no summary card),
a mean equal to round-half-up of (sum of that category's scores / N). -/
theorem summaryMeans_threeCategories (reports : List LighthouseReport)
    (hne : reports ≠ [])
    (hp : ∀ r ∈ reports, (r.scores.performance).isSome)
    (ha : ∀ r ∈ reports, (r.scores.accessibility).isSome)
    (hs : ∀ r ∈ reports, (r.scores.seo).isSome) :
    (summaryCards reports).head? =
      some ("Total Reports", toString reports.length) ∧
    avgScoreCard reports (fun r => r.scores.performance) =
      .num (roundHalfUpMean
        (reports.map fun r => (r.scores.performance).getD 0)) ∧
    avgScoreCard reports (fun r => r.scores.accessibility) =
      .num (roundHalfUpMean
        (reports.map fun r => (r.scores.accessibility).getD 0)) ∧
    avgScoreCard reports (fun r => r.scores.seo) =
      .num (roundHalfUpMean (reports.map fun r => (r.scores.seo).getD 0)) := by
  have hlen : (reports.length : ℚ) ≠ 0 :=
    Nat.cast_ne_zero.mpr (fun h => hne (List.length_eq_zero.mp h))
  refine ⟨rfl, ?_, ?_, ?_⟩
  · rw [avgScoreCard, foldl_jsAdd_present _ _ _ hp]
    simp [jsDiv, jsRound, roundHalfUpMean, hlen]
  · rw [avgScoreCard, foldl_jsAdd_present _ _ _ ha]
    simp [jsDiv, jsRound, roundHalfUpMean, hlen]
  · rw [avgScoreCard, foldl_jsAdd_present _ _ _ hs]
    simp [jsDiv, jsRound, roundHalfUpMean, hlen]

/-- One of three same-day audit runs: performance 80, saved at the
earliest time bucket. -/
def reportPerf80 : LighthouseReport :=
  ⟨"https://site.example", 1000, ⟨some 80, some 90, some 90, some 90, none⟩,
    ⟨1080, 1080, 0, 0, 0, 100⟩, "raw"⟩

/-- Second same-day run: performance 90. -/
def reportPerf90 : LighthouseReport :=
  ⟨"https://site.example", 2000, ⟨some 90, some 90, some 90, some 90, none⟩,
    ⟨1080, 1080, 0, 0, 0, 100⟩, "raw"⟩

/-- Third same-day run: performance 100. -/
def reportPerf100 : LighthouseReport :=
  ⟨"https://site.example", 3000, ⟨some 100, some 90, some 90, some 90, none⟩,
    ⟨1080, 1080, 0, 0, 0, 100⟩, "raw"⟩

/-- The three-report scenario sequence (performance 80, 90, 100). -/
def perfTrioReports : List LighthouseReport :=
  [reportPerf80, reportPerf90, reportPerf100]

/-- Witness for `summaryMeans_threeCategories`: three reports with
performance scores 80, 90, 100 give count 3 and performance mean 90. -/
theorem summaryMeans_threeCategories_witness :
    perfTrioReports ≠ [] ∧
    (summaryCards perfTrioReports).head? = some ("Total Reports", "3") ∧
    avgScoreCard perfTrioReports (fun r => r.scores.performance) =
      .num 90 := by
  have h := summaryMeans_threeCategories perfTrioReports (by decide)
    (by decide) (by decide) (by decide)
  refine ⟨by decide, by simpa using h.1, ?_⟩
  rw [h.2.1]
  have hmap : (perfTrioReports.map fun r => (r.scores.performance).getD 0) =
      [80, 90, 100] := by
    simp [perfTrioReports, reportPerf80, reportPerf90, reportPerf100]
  rw [hmap]
  norm_num [roundHalfUpMean]

/-! ## C6: detail rows sorted most-recent-first -/

/-- C6: the aggregation sorts the loaded reports by creation timestamp
descending (`sortByTimestampDesc` is a permutation of its input, pairwise
ordered most-recent-first), and the rendered detail section emits exactly
one row per report, in that order (the rows are the row renderings of the
sorted sequence, joined). -/
theorem detailRows_sortedByTimestampDesc (reports : List LighthouseReport) :
    (sortByTimestampDesc reports).Perm reports ∧
    (sortByTimestampDesc reports).Pairwise
      (fun a b => b.timestamp ≤ a.timestamp) ∧
    ((sortByTimestampDesc reports).map renderReportRow).length =
      reports.length ∧
    reportRowsJoined (sortByTimestampDesc reports) =
      String.join ((sortByTimestampDesc reports).map renderReportRow) := by
  have hperm := List.mergeSort_perm reports
    (fun a b => decide (b.timestamp ≤ a.timestamp))
  refine ⟨hperm, ?_, ?_, rfl⟩
  · have htrans : ∀ a b c : LighthouseReport,
        decide (b.timestamp ≤ a.timestamp) = true →
        decide (c.timestamp ≤ b.timestamp) = true →
        decide (c.timestamp ≤ a.timestamp) = true := by
      intro a b c h1 h2
      simp only [decide_eq_true_eq] at *
      omega
    have htotal : ∀ a b : LighthouseReport,
        (decide (b.timestamp ≤ a.timestamp) ||
          decide (a.timestamp ≤ b.timestamp)) = true := by
      intro a b
      simp only [Bool.or_eq_true, decide_eq_true_eq]
      omega
    have hs := List.sorted_mergeSort htrans htotal reports
    exact hs.imp (fun h => by simpa using h)
  · rw [List.length_map]
    exact hperm.length_eq

/-! ## C5: a malformed document aborts the scan -/

/-- An entry of a time folder that passes the `.json` name filter but on
which `fs.readJSON` throws (a malformed document, or a directory named
like a report file). -/
def badJsonEntry (e : String × TimeEntry) : Bool :=
  strEndsWith e.1 ".json" &&
    (match e.2 with
     | .file (.valid _) => false
     | _ => true)

/-- A time folder containing an entry the read loop throws on. -/
def hasBadJsonTime (files : List (String × TimeEntry)) : Bool :=
  files.any badJsonEntry

/-- A date folder with a time folder the read loop throws in. -/
def hasBadJsonDate (entries : List (String × DateEntry)) : Bool :=
  entries.any fun e =>
    match e.2 with
    | .dir files => hasBadJsonTime files
    | .file _ => false

/-- A report root under which some reachable `.json` entry makes the scan
throw. -/
def hasBadJson (store : Store) : Bool :=
  store.any fun e =>
    match e.2 with
    | .dir entries => hasBadJsonDate entries
    | .file _ => false

/-- The read loop propagates the error of any member entry. -/
theorem readJsonFiles_error (l : List (String × TimeEntry))
    (e : String × TimeEntry) (he : e ∈ l) (msg : String)
    (herr : readJSONentry e.2 = .error msg) :
    ∃ m, readJsonFiles l = .error m := by
  induction l with
  | nil => cases he
  | cons x xs ih =>
    rcases List.mem_cons.mp he with rfl | hmem
    · exact ⟨msg, by simp [readJsonFiles, herr, Bind.bind, Except.bind]⟩
    · cases hx : readJSONentry x.2 with
      | error m =>
        exact ⟨m, by simp [readJsonFiles, hx, Bind.bind, Except.bind]⟩
      | ok r =>
        obtain ⟨m, hm⟩ := ih hmem
        exact ⟨m, by simp [readJsonFiles, hx, hm, Bind.bind, Except.bind]⟩

/-- A time folder containing a bad `.json` entry makes `scanTimeFolder`
throw. -/
theorem scanTimeFolder_error (files : List (String × TimeEntry))
    (h : hasBadJsonTime files = true) :
    ∃ m, scanTimeFolder files = .error m := by
  obtain ⟨e, he, hbad⟩ := List.any_eq_true.mp h
  rw [badJsonEntry, Bool.and_eq_true] at hbad
  have hmem : e ∈ files.filter (fun e => strEndsWith e.1 ".json") :=
    List.mem_filter.mpr ⟨he, hbad.1⟩
  have herr : ∃ m, readJSONentry e.2 = .error m := by
    rcases e with ⟨n, te⟩
    cases te with
    | file d =>
      cases d with
      | valid r => simp at hbad
      | malformed => exact ⟨_, rfl⟩
    | subdir => exact ⟨_, rfl⟩
  obtain ⟨m, hm⟩ := herr
  exact readJsonFiles_error _ e hmem m hm

/-- A date folder containing a bad `.json` entry makes `scanDateFolder`
throw. -/
theorem scanDateFolder_error (entries : List (String × DateEntry))
    (h : hasBadJsonDate entries = true) :
    ∃ m, scanDateFolder entries = .error m := by
  induction entries with
  | nil => simp [hasBadJsonDate] at h
  | cons x xs ih =>
    rcases x with ⟨n, de⟩
    cases de with
    | file d =>
      have h' : hasBadJsonDate xs = true := by
        simpa [hasBadJsonDate] using h
      obtain ⟨m, hm⟩ := ih h'
      exact ⟨m, by simp [scanDateFolder, hm]⟩
    | dir files =>
      by_cases hf : hasBadJsonTime files = true
      · obtain ⟨m, hm⟩ := scanTimeFolder_error files hf
        exact ⟨m, by simp [scanDateFolder, hm, Bind.bind, Except.bind]⟩
      · have h' : hasBadJsonDate xs = true := by
          simp [hasBadJsonDate] at h
          rcases h with h | h
          · exact absurd h hf
          · simpa [hasBadJsonDate] using h
        obtain ⟨m, hm⟩ := ih h'
        cases hscan : scanTimeFolder files with
        | error m2 =>
          exact ⟨m2, by simp [scanDateFolder, hscan, Bind.bind, Except.bind]⟩
        | ok rs =>
          exact ⟨m, by simp [scanDateFolder, hscan, hm, Bind.bind, Except.bind]⟩

/-- C5 amended: one malformed (or otherwise unreadable) `.json` entry
anywhere under the root aborts the whole scan: the `fs.readJSON` error
propagates out of `scanRoot` uncaught, so no reports at all are returned —
the code implements abort-whole-scan, not skip-with-warning. -/
theorem malformedDoc_abortsScan (store : Store)
    (h : hasBadJson store = true) :
    ∃ msg, scanRoot store = .error msg := by
  induction store with
  | nil => simp [hasBadJson] at h
  | cons x xs ih =>
    rcases x with ⟨n, re⟩
    cases re with
    | file d =>
      have h' : hasBadJson xs = true := by
        simpa [hasBadJson] using h
      obtain ⟨m, hm⟩ := ih h'
      exact ⟨m, by simp [scanRoot, hm]⟩
    | dir entries =>
      by_cases hf : hasBadJsonDate entries = true
      · obtain ⟨m, hm⟩ := scanDateFolder_error entries hf
        exact ⟨m, by simp [scanRoot, hm, Bind.bind, Except.bind]⟩
      · have h' : hasBadJson xs = true := by
          simp [hasBadJson] at h
          rcases h with h | h
          · exact absurd h hf
          · simpa [hasBadJson] using h
        obtain ⟨m, hm⟩ := ih h'
        cases hscan : scanDateFolder entries with
        | error m2 =>
          exact ⟨m2, by simp [scanRoot, hscan, Bind.bind, Except.bind]⟩
        | ok rs =>
          exact ⟨m, by simp [scanRoot, hscan, hm, Bind.bind, Except.bind]⟩

/-- A store with a corrupted document in the 10-00-00 bucket and a valid
document in the sibling 11-00-00 bucket of the same day. -/
def corruptedStore : Store :=
  [("2025-01-02", .dir
    [("10-00-00", .dir [("lighthouse-1.json", .file .malformed)]),
     ("11-00-00", .dir [("lighthouse-2.json", .file (.valid reportWithSeo))])])]

/-- C5 counterexample: on `corruptedStore` the scan does not return the
valid sibling report — it throws the JSON parse error, yielding no report
sequence at all. -/
theorem malformedDoc_scanError :
    scanRoot corruptedStore = .error "SyntaxError: unexpected token in JSON" ∧
    ∀ reports, scanRoot corruptedStore ≠ .ok reports := by
  have h1 : scanRoot corruptedStore =
      .error "SyntaxError: unexpected token in JSON" := rfl
  refine ⟨h1, fun reports hcontra => ?_⟩
  rw [h1] at hcontra
  exact Except.noConfusion hcontra

/-- Witness for `malformedDoc_abortsScan` at `corruptedStore`. -/
theorem malformedDoc_abortsScan_witness :
    hasBadJson corruptedStore = true ∧
    (∃ msg, scanRoot corruptedStore = .error msg) :=
  ⟨by decide, malformedDoc_abortsScan corruptedStore (by decide)⟩

/-! ## C8: the renderer reads the clock -/

/-- A store holding exactly one valid report document. -/
def singleReportStore : Store :=
  [("2025-01-02", .dir
    [("10-00-00", .dir [("lighthouse-1.json", .file (.valid reportWithSeo))])])]

/-- The rendered output is a function of the scan result and of the
wall-clock value read at the top of the renderer. -/
theorem generate_eq_of_scan_eq (es1 es2 : Store) (now : JsDate)
    (h : scanRoot es1 = scanRoot es2) :
    generateConsolidatedReportWithDateTime (some es1) now =
      generateConsolidatedReportWithDateTime (some es2) now := by
  simp only [generateConsolidatedReportWithDateTime, h]

set_option maxRecDepth 4000 in
/-- C8 counterexample: the renderer is not a pure function of the loaded
reports — it reads the system clock itself (the `getDateTimePath()` call),
so rendering the identical store at two wall-clock instants one second
apart produces different output documents. -/
theorem renderDependsOnClock :
    generateConsolidatedReportWithDateTime (some singleReportStore)
      ⟨2025, 1, 2, 10, 0, 0⟩ ≠
    generateConsolidatedReportWithDateTime (some singleReportStore)
      ⟨2025, 1, 2, 10, 0, 1⟩ := by
  have hscan : scanRoot singleReportStore = .ok [reportWithSeo] := rfl
  have hgen : ∀ now : JsDate,
      generateConsolidatedReportWithDateTime (some singleReportStore) now =
        .ok (consolidatedHtml (sortByTimestampDesc [reportWithSeo])
          (dateTimeLabel now)) := by
    intro now
    simp [generateConsolidatedReportWithDateTime, hscan, getDateTimePath,
      Bind.bind, Except.bind, Pure.pure, Except.pure]
  intro hcontra
  rw [hgen, hgen] at hcontra
  have heq : consolidatedHtml (sortByTimestampDesc [reportWithSeo])
      (dateTimeLabel ⟨2025, 1, 2, 10, 0, 0⟩) =
      consolidatedHtml (sortByTimestampDesc [reportWithSeo])
      (dateTimeLabel ⟨2025, 1, 2, 10, 0, 1⟩) := by
    exact Except.ok.inj hcontra
  rw [consolidatedHtml, consolidatedHtml] at heq
  have hdata := congrArg String.data heq
  simp only [String.data_append, List.append_assoc] at hdata
  have h2 := List.append_cancel_left hdata
  have hl : (dateTimeLabel ⟨2025, 1, 2, 10, 0, 0⟩).data.length =
      (dateTimeLabel ⟨2025, 1, 2, 10, 0, 1⟩).data.length := by decide
  have h3 := List.append_inj_left h2 hl
  have hne : (dateTimeLabel ⟨2025, 1, 2, 10, 0, 0⟩).data ≠
      (dateTimeLabel ⟨2025, 1, 2, 10, 0, 1⟩).data := by decide
  exact hne h3

/-- C8 amended: the renderer is deterministic only relative to the clock —
given the same scanned reports and the same wall-clock instant it produces
byte-identical output; but it reads the clock itself
(`getDateTimePath()` / `new Date()`) rather than taking a render timestamp
as input, so renderings of the identical store differ across instants. -/
theorem renderDeterministicGivenClock (es1 es2 : Store) (now : JsDate)
    (h : scanRoot es1 = scanRoot es2) :
    generateConsolidatedReportWithDateTime (some es1) now =
      generateConsolidatedReportWithDateTime (some es2) now :=
  generate_eq_of_scan_eq es1 es2 now h

/-- Witness for `renderDeterministicGivenClock`: the same store scanned
twice renders identically at one fixed instant. -/
theorem renderDeterministicGivenClock_witness :
    scanRoot singleReportStore = scanRoot singleReportStore ∧
    generateConsolidatedReportWithDateTime (some singleReportStore)
      ⟨2025, 1, 2, 12, 30, 0⟩ =
    generateConsolidatedReportWithDateTime (some singleReportStore)
      ⟨2025, 1, 2, 12, 30, 0⟩ :=
  ⟨rfl, renderDeterministicGivenClock singleReportStore singleReportStore
    ⟨2025, 1, 2, 12, 30, 0⟩ rfl⟩

/-! ## C1: save-then-scan round trip -/

/-- Freshness inside a date folder: no time folder named `tf` under it
already contains an entry named `fn`. -/
def timeFresh (entries : List (String × DateEntry)) (tf fn : String) : Bool :=
  entries.all fun e =>
    !(decide (e.1 = tf)) ||
      (match e.2 with
       | .dir files => files.all fun f => !(decide (f.1 = fn))
       | .file _ => true)

/-- Freshness in the store: no date folder named `df` already contains a
time folder `tf` with an entry named `fn` — the target path of the save is
not yet occupied. -/
def dateFresh (store : Store) (df tf fn : String) : Bool :=
  store.all fun e =>
    !(decide (e.1 = df)) ||
      (match e.2 with
       | .dir entries => timeFresh entries tf fn
       | .file _ => true)

/-- Writing a fresh filename appends the document at the end of the time
folder listing. -/
theorem writeJsonDoc_fresh (files : List (String × TimeEntry)) (fn : String)
    (d : Doc) (hfresh : ∀ e ∈ files, e.1 ≠ fn) :
    writeJsonDoc files fn d = .ok (files ++ [(fn, .file d)]) := by
  induction files with
  | nil => rfl
  | cons x xs ih =>
    rcases x with ⟨n, e⟩
    have hx : n ≠ fn := hfresh (n, e) (by simp)
    have hrest : ∀ e ∈ xs, e.1 ≠ fn := fun e he => hfresh e (by simp [he])
    simp [writeJsonDoc, hx, ih hrest, Bind.bind, Except.bind]

/-- The read loop distributes over an appended listing. -/
theorem readJsonFiles_append (l1 l2 : List (String × TimeEntry))
    (M1 M2 : List LighthouseReport)
    (h1 : readJsonFiles l1 = .ok M1) (h2 : readJsonFiles l2 = .ok M2) :
    readJsonFiles (l1 ++ l2) = .ok (M1 ++ M2) := by
  induction l1 generalizing M1 with
  | nil =>
    simp only [readJsonFiles] at h1
    cases h1
    simpa using h2
  | cons x xs ih =>
    cases hr : readJSONentry x.2 with
    | error m => simp [readJsonFiles, hr, Bind.bind, Except.bind] at h1
    | ok r =>
      cases hxs : readJsonFiles xs with
      | error m => simp [readJsonFiles, hr, hxs, Bind.bind, Except.bind] at h1
      | ok more =>
        simp only [readJsonFiles, hr, hxs, Bind.bind, Except.bind,
          Pure.pure, Except.pure, Except.ok.injEq] at h1
        subst h1
        simp [List.cons_append, readJsonFiles, hr, ih more hxs,
          Bind.bind, Except.bind, Pure.pure, Except.pure]

/-- Appending a fresh valid `.json` document to a time folder appends its
report to that folder's scan result. -/
theorem scanTimeFolder_write (files : List (String × TimeEntry))
    (fn : String) (r : LighthouseReport) (M : List LighthouseReport)
    (hjson : strEndsWith fn ".json" = true)
    (hM : scanTimeFolder files = .ok M) :
    scanTimeFolder (files ++ [(fn, .file (.valid r))]) = .ok (M ++ [r]) := by
  rw [scanTimeFolder] at hM ⊢
  rw [List.filter_append]
  have hone : List.filter (fun e => strEndsWith e.1 ".json")
      [(fn, TimeEntry.file (.valid r))] = [(fn, .file (.valid r))] := by
    simp [hjson]
  rw [hone]
  refine readJsonFiles_append _ _ _ _ hM ?_
  simp [readJsonFiles, readJSONentry, Bind.bind, Except.bind,
    Pure.pure, Except.pure]


/-- Saving into a date folder inserts the new report at its bucket's
position in that folder's scan result. -/
theorem scanDateFolder_after_ensure
    (entries : List (String × DateEntry)) (tf fn : String)
    (r : LighthouseReport) (entries' : List (String × DateEntry))
    (M : List LighthouseReport)
    (hok : ensureTimeDirAndWrite entries tf fn (.valid r) = .ok entries')
    (hjson : strEndsWith fn ".json" = true)
    (hfresh : timeFresh entries tf fn = true)
    (hscan : scanDateFolder entries = .ok M) :
    ∃ pre post, M = pre ++ post ∧
      scanDateFolder entries' = .ok (pre ++ r :: post) := by
  induction entries generalizing entries' M with
  | nil =>
    simp only [ensureTimeDirAndWrite, Except.ok.injEq] at hok
    simp only [scanDateFolder, Except.ok.injEq] at hscan
    subst hok
    subst hscan
    refine ⟨[], [], rfl, ?_⟩
    simp [scanDateFolder, scanTimeFolder, readJsonFiles, readJSONentry,
      hjson, Bind.bind, Except.bind, Pure.pure, Except.pure]
  | cons x rest ih =>
    rcases x with ⟨n, e⟩
    have hfrest : timeFresh rest tf fn = true := by
      simp only [timeFresh, List.all_cons, Bool.and_eq_true] at hfresh
      exact hfresh.2
    by_cases hn : n = tf
    · subst hn
      cases e with
      | file d => simp [ensureTimeDirAndWrite] at hok
      | dir files =>
        have hfr : ∀ f ∈ files, f.1 ≠ fn := by
          simp only [timeFresh, List.all_cons, Bool.and_eq_true] at hfresh
          have h1 := hfresh.1
          simp at h1
          intro f hf
          obtain ⟨a, b⟩ := f
          exact h1 a b hf
        have hentries : entries' =
            (n, DateEntry.dir (files ++ [(fn, TimeEntry.file (.valid r))]))
              :: rest := by
          simp [ensureTimeDirAndWrite, writeJsonDoc_fresh files fn _ hfr,
            Bind.bind, Except.bind] at hok
          exact hok.symm
        subst hentries
        cases hrs : scanTimeFolder files with
        | error m => simp [scanDateFolder, hrs, Bind.bind, Except.bind] at hscan
        | ok rs =>
          cases hmore : scanDateFolder rest with
          | error m =>
            simp [scanDateFolder, hrs, hmore, Bind.bind, Except.bind] at hscan
          | ok more =>
            have hMeq : M = rs ++ more := by
              simp only [scanDateFolder, hrs, hmore, Bind.bind, Except.bind,
                Pure.pure, Except.pure, Except.ok.injEq] at hscan
              exact hscan.symm
            refine ⟨rs, more, hMeq, ?_⟩
            have hnew := scanTimeFolder_write files fn r rs hjson hrs
            simp [scanDateFolder, hnew, hmore, Bind.bind, Except.bind,
              Pure.pure, Except.pure, List.append_assoc]
    · have hok' : (ensureTimeDirAndWrite rest tf fn (.valid r) >>=
          fun rest' => Except.ok ((n, e) :: rest')) = .ok entries' := by
        simpa [ensureTimeDirAndWrite, hn] using hok
      cases hrest : ensureTimeDirAndWrite rest tf fn (.valid r) with
      | error m => simp [hrest, Bind.bind, Except.bind] at hok'
      | ok rest' =>
        have hentries : entries' = (n, e) :: rest' := by
          simp [hrest, Bind.bind, Except.bind] at hok'
          exact hok'.symm
        subst hentries
        cases e with
        | file d =>
          have hscan' : scanDateFolder rest = .ok M := by
            simpa [scanDateFolder] using hscan
          obtain ⟨pre, post, hMeq, hnew⟩ := ih rest' M hrest hfrest hscan'
          exact ⟨pre, post, hMeq, by simpa [scanDateFolder] using hnew⟩
        | dir files =>
          cases hrs : scanTimeFolder files with
          | error m =>
            simp [scanDateFolder, hrs, Bind.bind, Except.bind] at hscan
          | ok rs =>
            cases hmore : scanDateFolder rest with
            | error m =>
              simp [scanDateFolder, hrs, hmore, Bind.bind, Except.bind]
                at hscan
            | ok more =>
              have hMeq : M = rs ++ more := by
                simp only [scanDateFolder, hrs, hmore, Bind.bind, Except.bind,
                  Pure.pure, Except.pure, Except.ok.injEq] at hscan
                exact hscan.symm
              obtain ⟨pre', post', hmoreEq, hnew⟩ :=
                ih rest' more hrest hfrest hmore
              refine ⟨rs ++ pre', post',
                by rw [hMeq, hmoreEq, List.append_assoc], ?_⟩
              simp [scanDateFolder, hrs, hnew, Bind.bind, Except.bind,
                Pure.pure, Except.pure, List.append_assoc]

/-- Saving into the store inserts the new report at its bucket's position
in the root scan result. -/
theorem scanRoot_after_save (store store' : Store) (df tf fn : String)
    (r : LighthouseReport) (M : List LighthouseReport)
    (hok : ensureDateDirAndWrite store df tf fn (.valid r) = .ok store')
    (hjson : strEndsWith fn ".json" = true)
    (hfresh : dateFresh store df tf fn = true)
    (hscan : scanRoot store = .ok M) :
    ∃ pre post, M = pre ++ post ∧
      scanRoot store' = .ok (pre ++ r :: post) := by
  induction store generalizing store' M with
  | nil =>
    simp only [ensureDateDirAndWrite, Except.ok.injEq] at hok
    simp only [scanRoot, Except.ok.injEq] at hscan
    subst hok
    subst hscan
    refine ⟨[], [], rfl, ?_⟩
    simp [scanRoot, scanDateFolder, scanTimeFolder, readJsonFiles,
      readJSONentry, hjson, Bind.bind, Except.bind, Pure.pure, Except.pure]
  | cons x rest ih =>
    rcases x with ⟨n, e⟩
    have hfrest : dateFresh rest df tf fn = true := by
      simp only [dateFresh, List.all_cons, Bool.and_eq_true] at hfresh
      exact hfresh.2
    by_cases hn : n = df
    · subst hn
      cases e with
      | file d => simp [ensureDateDirAndWrite] at hok
      | dir entries =>
        have hfr : timeFresh entries tf fn = true := by
          simp only [dateFresh, List.all_cons, Bool.and_eq_true] at hfresh
          have h1 := hfresh.1
          simpa using h1
        have hok' : (ensureTimeDirAndWrite entries tf fn (.valid r) >>=
            fun entries2 => Except.ok ((n, RootEntry.dir entries2) :: rest)) =
              .ok store' := by
          simpa [ensureDateDirAndWrite] using hok
        cases hens : ensureTimeDirAndWrite entries tf fn (.valid r) with
        | error m => simp [hens, Bind.bind, Except.bind] at hok'
        | ok entries2 =>
          have hstore : store' = (n, RootEntry.dir entries2) :: rest := by
            simp [hens, Bind.bind, Except.bind] at hok'
            exact hok'.symm
          subst hstore
          cases hrs : scanDateFolder entries with
          | error m => simp [scanRoot, hrs, Bind.bind, Except.bind] at hscan
          | ok rs =>
            cases hmore : scanRoot rest with
            | error m =>
              simp [scanRoot, hrs, hmore, Bind.bind, Except.bind] at hscan
            | ok more =>
              have hMeq : M = rs ++ more := by
                simp only [scanRoot, hrs, hmore, Bind.bind, Except.bind,
                  Pure.pure, Except.pure, Except.ok.injEq] at hscan
                exact hscan.symm
              obtain ⟨pre, post, hrsEq, hnew⟩ :=
                scanDateFolder_after_ensure entries tf fn r entries2 rs
                  hens hjson hfr hrs
              refine ⟨pre, post ++ more,
                by rw [hMeq, hrsEq, List.append_assoc], ?_⟩
              simp [scanRoot, hnew, hmore, Bind.bind, Except.bind,
                Pure.pure, Except.pure, List.append_assoc]
    · have hok' : (ensureDateDirAndWrite rest df tf fn (.valid r) >>=
          fun rest' => Except.ok ((n, e) :: rest')) = .ok store' := by
        simpa [ensureDateDirAndWrite, hn] using hok
      cases hrest : ensureDateDirAndWrite rest df tf fn (.valid r) with
      | error m => simp [hrest, Bind.bind, Except.bind] at hok'
      | ok rest' =>
        have hstore : store' = (n, e) :: rest' := by
          simp [hrest, Bind.bind, Except.bind] at hok'
          exact hok'.symm
        subst hstore
        cases e with
        | file d =>
          have hscan' : scanRoot rest = .ok M := by
            simpa [scanRoot] using hscan
          obtain ⟨pre, post, hMeq, hnew⟩ := ih rest' M hrest hfrest hscan'
          exact ⟨pre, post, hMeq, by simpa [scanRoot] using hnew⟩
        | dir entries =>
          cases hrs : scanDateFolder entries with
          | error m => simp [scanRoot, hrs, Bind.bind, Except.bind] at hscan
          | ok rs =>
            cases hmore : scanRoot rest with
            | error m =>
              simp [scanRoot, hrs, hmore, Bind.bind, Except.bind] at hscan
            | ok more =>
              have hMeq : M = rs ++ more := by
                simp only [scanRoot, hrs, hmore, Bind.bind, Except.bind,
                  Pure.pure, Except.pure, Except.ok.injEq] at hscan
                exact hscan.symm
              obtain ⟨pre', post', hmoreEq, hnew⟩ :=
                ih rest' more hrest hfrest hmore
              refine ⟨rs ++ pre', post',
                by rw [hMeq, hmoreEq, List.append_assoc], ?_⟩
              simp [scanRoot, hrs, hnew, Bind.bind, Except.bind,
                Pure.pure, Except.pure, List.append_assoc]

/-- C1: the store and the scanner agree on the two-level zero-padded
day/time layout: saving a valid report `r` under a fresh `.json` filename
(`saveReportWithDateTime`) and then scanning the root
(`generateConsolidatedReportWithDateTime`'s walk) yields the previous scan
plus `r`; in particular, when `r` was not already present, the scan
contains exactly one report equal to `r` in all fields. -/
theorem saveScan_roundTrip (store store' : Store)
    (L : List LighthouseReport) (now : JsDate) (r : LighthouseReport)
    (fn : String)
    (hscan : scanRoot store = .ok L)
    (hjson : strEndsWith fn ".json" = true)
    (hfresh : dateFresh store (dateFolderName now) (timeFolderName now) fn
      = true)
    (hsave : saveReportWithDateTime store now r fn = .ok store')
    (hnew : r ∉ L) :
    ∃ L', scanRoot store' = .ok L' ∧ L'.Perm (r :: L) ∧ L'.count r = 1 := by
  obtain ⟨pre, post, hM, hscan'⟩ := scanRoot_after_save store store'
    (dateFolderName now) (timeFolderName now) fn r L hsave hjson hfresh hscan
  have hperm : (pre ++ r :: post).Perm (r :: L) := by
    rw [hM]
    exact List.perm_middle
  refine ⟨pre ++ r :: post, hscan', hperm, ?_⟩
  rw [hperm.count_eq, List.count_cons_self, List.count_eq_zero.mpr hnew]

/-- Witness for `saveScan_roundTrip`: saving one report into an empty
store at 2025-01-02 10:00:00 under the default filename, then scanning,
yields exactly that report. -/
theorem saveScan_roundTrip_witness :
    scanRoot [] = .ok [] ∧
    strEndsWith (defaultReportFilename 1000) ".json" = true ∧
    dateFresh [] (dateFolderName ⟨2025, 1, 2, 10, 0, 0⟩)
      (timeFolderName ⟨2025, 1, 2, 10, 0, 0⟩)
      (defaultReportFilename 1000) = true ∧
    (∃ store', saveReportWithDateTime [] ⟨2025, 1, 2, 10, 0, 0⟩
        reportWithSeo (defaultReportFilename 1000) = .ok store' ∧
      ∃ L', scanRoot store' = .ok L' ∧ L'.Perm [reportWithSeo] ∧
        L'.count reportWithSeo = 1) := by
  refine ⟨rfl, by decide, by decide, ?_⟩
  refine ⟨_, rfl, ?_⟩
  exact saveScan_roundTrip [] _ [] ⟨2025, 1, 2, 10, 0, 0⟩ reportWithSeo
    (defaultReportFilename 1000) rfl (by decide) (by decide) rfl (by simp)
